import Mathlib

/-!
Verification of the keyboard-firmware loader script (src/index.ts).

The script is sequential and effectful; we embed it shallowly:

* filenames, paths and error messages are lists of characters;
* every filesystem probe or action is an oracle supplied as a parameter
  (a function from call index to outcome, or an explicit state value), so
  each source function becomes a pure Lean function of its oracles;
* fallible calls return `Except`, the `try/catch` blocks of the source are
  translated into matches on those results;
* the two unbounded loops (the bootloader polling loop and the retry loop)
  are written with explicit fuel; the polling loop returns `none` when the
  fuel runs out, matching its possible divergence, while the retry loop is
  always given enough fuel for its bound of 5 attempts.
-/

namespace LoadKeyboardFirmware

/-- Error values (messages) carried by failing filesystem calls. -/
abbrev Err := List Char

/-- File names / paths, as character lists. -/
abbrev FileName := List Char

/-- Point-in-time state of the NICENANO volume as observed by the three
filesystem probes used in `isVolumeReady` (src/index.ts:114-130):
`fs.access` (existence), `fs.readdir` (listability), `fs.access W_OK`
(writability). -/
structure VolumeFS where
  pathExists : Bool
  listable : Bool
  writable : Bool
deriving DecidableEq

/-- Model of `await fs.access(NICENANO_VOLUME)` (src/index.ts:117). -/
def fsAccess (v : VolumeFS) : Except Err Unit :=
  if v.pathExists then Except.ok () else Except.error "ENOENT".data

/-- Model of `await fs.readdir(NICENANO_VOLUME)` (src/index.ts:120); the
returned listing is irrelevant to the script, only success matters. -/
def fsReaddir (v : VolumeFS) : Except Err Unit :=
  if v.listable then Except.ok () else Except.error "EIO".data

/-- Model of `await fs.access(NICENANO_VOLUME, fs.constants.W_OK)`
(src/index.ts:123). -/
def fsAccessW (v : VolumeFS) : Except Err Unit :=
  if v.writable then Except.ok () else Except.error "EACCES".data

/-- Function `isVolumeReady` (src/index.ts:114-130): runs the three probes in order
inside a `try`; any raised error is caught and turned into `false`,
otherwise the function returns `true`. The Lean function is total and
returns `Bool`, mirroring that the source never lets an error escape. -/
def isVolumeReady (v : VolumeFS) : Bool :=
  match (do fsAccess v; fsReaddir v; fsAccessW v : Except Err Unit) with
  | Except.ok _ => true
  | Except.error _ => false

/-- Events of one run of `waitForBootloaderMode` (src/index.ts:135-152):
a readiness observation (one call to `isVolumeReady` with its result), the
1000 ms sleep between polls, and the 1500 ms settle sleep after the first
`true` observation. -/
inductive WaitEvent where
  | observe (ready : Bool)
  | sleepPoll
  | sleepSettle
deriving DecidableEq

/-- The `while (true)` polling loop of `waitForBootloaderMode`
(src/index.ts:140-151). `vols k` is the volume state seen by the k-th call
to `isVolumeReady`; `fuel` bounds how many iterations we unfold, and
`none` means the loop has not returned within `fuel` iterations. On the
first `true` observation the loop sleeps 1500 ms and returns. -/
def waitLoop (vols : Nat → VolumeFS) : Nat → Nat → Option (List WaitEvent)
  | _, 0 => none
  | k, fuel + 1 =>
    if isVolumeReady (vols k) then
      some [WaitEvent.observe true, WaitEvent.sleepSettle]
    else
      match waitLoop vols (k + 1) fuel with
      | some tr => some (WaitEvent.observe false :: WaitEvent.sleepPoll :: tr)
      | none => none

/-- Function `waitForBootloaderMode` (src/index.ts:135-152): start the polling loop
at observation index 0. The returned trace records every readiness
observation and sleep, in order; a `none` result means the call has not
returned (the loop has no other exit). -/
def waitForBootloaderMode (vols : Nat → VolumeFS) (fuel : Nat) : Option (List WaitEvent) :=
  waitLoop vols 0 fuel

/-- Number of readiness observations in a wait trace. -/
def countObserves (tr : List WaitEvent) : Nat :=
  tr.countP (fun e => match e with | WaitEvent.observe _ => true | _ => false)

/-- The trace of a run that observes `n` failed polls and then succeeds. -/
def failedPollsTrace (n : Nat) : List WaitEvent :=
  match n with
  | 0 => []
  | n + 1 => WaitEvent.observe false :: WaitEvent.sleepPoll :: failedPollsTrace n

/-! Copy-with-retry (`copyFirmwareToKeyboard`, src/index.ts:177-228). -/

/-- Per-attempt oracle for one call of `copyFirmwareToKeyboard`: for the
attempt with 0-based index `n`, whether the pre-copy writability probe
`fs.access(NICENANO_VOLUME, W_OK)` (src/index.ts:202) succeeds, whether the
subsequent `fs.copy` (src/index.ts:205) succeeds, and the error each would
raise on failure. -/
structure CopyEnv where
  writable : Nat → Bool
  copyOk : Nat → Bool
  accessErr : Nat → Err
  copyErr : Nat → Err

/-- Body of the `try` block of attempt `n` (src/index.ts:192-212): the
writability probe runs first and, only if it succeeds, the copy runs; the
first failure raises its error. -/
def copyAttempt (env : CopyEnv) (n : Nat) : Except Err Unit := do
  (if env.writable n then Except.ok () else Except.error (env.accessErr n))
  (if env.copyOk n then Except.ok () else Except.error (env.copyErr n))

/-- Result of `copyFirmwareToKeyboard`: normal return after `attempts`
attempts, or the error of the last attempt propagated to the caller. -/
inductive CopyResult where
  | success (attempts : Nat)
  | exhausted (lastError : Err)
deriving DecidableEq

/-- Source constant `maxRetries = 5` (src/index.ts:178). -/
def maxRetries : Nat := 5

/-- The `while (retries < maxRetries)` loop (src/index.ts:191-227).
`retries` is the source's counter; `fuel` bounds the unfolding and is set
to `maxRetries` at the call so the loop is fully unfolded (each continuing
iteration increases `retries`, and the loop throws when `retries` reaches
`maxRetries`, so `maxRetries` iterations always suffice). Falling out of
the loop returns normally, as in the source. -/
def copyLoop (env : CopyEnv) : Nat → Nat → CopyResult
  | retries, 0 => CopyResult.success retries
  | retries, fuel + 1 =>
    if retries < maxRetries then
      match copyAttempt env retries with
      | Except.ok _ => CopyResult.success (retries + 1)
      | Except.error e =>
        if retries + 1 ≥ maxRetries then CopyResult.exhausted e
        else copyLoop env (retries + 1) fuel
    else CopyResult.success retries

/-- Function `copyFirmwareToKeyboard` (src/index.ts:177-228): the retry loop started
with `retries = 0`. -/
def copyFirmwareToKeyboard (env : CopyEnv) : CopyResult :=
  copyLoop env 0 maxRetries

/-! Effect of a successful copy on the volume directory
(`fs.copy(firmwarePath, path.join(NICENANO_VOLUME, path.basename(firmwarePath)))`,
src/index.ts:205). -/

/-- Model of `path.basename`: the last '/'-separated component of a path (the paths
this script builds never end in a separator). -/
def pathBasename (p : FileName) : FileName :=
  p.foldl (fun acc c => if c = '/' then [] else acc ++ [c]) []

/-- Model of `path.join` of a directory and an entry name, as used by this script
(the right operand is a bare file name). -/
def pathJoin (dir entry : FileName) : FileName :=
  dir ++ '/' :: entry

/-- A directory as an association list from entry name to file content
(bytes). -/
abbrev Dir := List (FileName × List Nat)

/-- Write `content` under `nm` in directory `d`, replacing an existing
entry of that name (the overwrite behavior of `fs.copy`). -/
def writeFile (d : Dir) (nm : FileName) (content : List Nat) : Dir :=
  match d with
  | [] => [(nm, content)]
  | (n, c) :: rest =>
    if n = nm then (nm, content) :: rest else (n, c) :: writeFile rest nm content

/-- Look up the content stored under `nm` in directory `d`. -/
def readFile (d : Dir) (nm : FileName) : Option (List Nat) :=
  match d with
  | [] => none
  | (n, c) :: rest => if n = nm then some c else readFile rest nm

/-- State change a successful `fs.copy` of src/index.ts:205 performs on the
volume directory: the source file's bytes are stored under the source
path's base filename. -/
def copyFirmwareEffect (firmwarePath : FileName) (srcContent : List Nat) (vol : Dir) : Dir :=
  writeFile vol (pathBasename firmwarePath) srcContent

/-! Firmware filename matching (src/index.ts:14-15) and
`extractFirmwareFiles` (src/index.ts:83-109). -/

/-- Lowercased role marker of `LEFT_FIRMWARE_PATTERN`
(src/index.ts:14, the regex sofle_left.*\.uf2 with flag i and end anchor). -/
def LEFT_MARKER : FileName := "sofle_left".data

/-- Lowercased role marker of `RIGHT_FIRMWARE_PATTERN` (src/index.ts:15). -/
def RIGHT_MARKER : FileName := "sofle_right".data

/-- The literal extension matched at the end of both regexes. -/
def uf2Suffix : FileName := ".uf2".data

/-- Whether the JS regex metacharacter '.' (no s flag on the source's
regexes) matches `c`: every character except the four ECMAScript line
terminators LF, CR, LS (U+2028) and PS (U+2029). -/
def regexDotMatches (c : Char) : Bool :=
  !(c = '\n' || c = '\r' || c = '\u2028' || c = '\u2029')

/-- Whether some occurrence of `marker` inside `l` is followed, up to the
end of `l`, only by characters that '.' matches. That trailing segment is
what the regex's ".*" must cover between the marker and the final
"\.uf2"; text before the occurrence is skipped by the regex search, not
matched by '.', so it is unrestricted. -/
def markerThenDotStar (marker : FileName) : FileName → Bool
  | [] => marker.isEmpty
  | c :: rest =>
    (marker.isPrefixOf (c :: rest) &&
      ((c :: rest).drop marker.length).all regexDotMatches) ||
      markerThenDotStar marker rest

/-- Semantics of `/marker.*\.uf2$/i.test(name)`: case-insensitively, the
name ends in ".uf2" and the role marker occurs somewhere before those last
four characters with no line terminator between the marker and the
extension ('.' does not match line terminators). The regex is unanchored
on the left (no caret), so the marker may be preceded by arbitrary text. -/
def testRole (marker : FileName) (nm : FileName) : Bool :=
  uf2Suffix.isSuffixOf (nm.map Char.toLower) &&
    markerThenDotStar marker ((nm.map Char.toLower).take ((nm.map Char.toLower).length - 4))

/-- Outcome of `extractFirmwareFiles`: the returned pair of paths or the
propagated error, together with whether the scratch directory was removed
(`fs.remove(tempDir)` in the catch block, src/index.ts:106). -/
structure ExtractOutcome where
  result : Except Err (FileName × FileName)
  tempDirRemoved : Bool

/-- The error message of src/index.ts:97. -/
def missingFirmwareMsg : Err :=
  "Could not find both left and right firmware files in the zip".data

/-- Function `extractFirmwareFiles` (src/index.ts:83-109). `tempDir` is the fresh
scratch directory; `extracted` is the combined outcome of
`extract(zipFilePath)` plus `fs.readdir(tempDir)` — the extracted entry
names, or the error extraction raised. On the success path, `find` picks
the first entry matching each role's regex; if either is missing the
function throws src/index.ts:97. Every thrown error passes through the
catch block, which removes the scratch directory and rethrows. -/
def extractFirmwareFiles (tempDir : FileName) (extracted : Except Err (List FileName)) :
    ExtractOutcome :=
  match extracted with
  | Except.error e => { result := Except.error e, tempDirRemoved := true }
  | Except.ok files =>
    match files.find? (testRole LEFT_MARKER), files.find? (testRole RIGHT_MARKER) with
    | some l, some r =>
      { result := Except.ok (pathJoin tempDir l, pathJoin tempDir r), tempDirRemoved := false }
    | _, _ => { result := Except.error missingFirmwareMsg, tempDirRemoved := true }

/-! Archive candidate listing (`getZipFiles`, src/index.ts:50-78). -/

/-- One candidate file: its entry name and its last-modified timestamp in
milliseconds (`stats.mtime.getTime()`). -/
structure FileInfo where
  name : FileName
  mtime : Int
deriving DecidableEq

/-- The extension filter string of src/index.ts:53. -/
def zipSuffix : FileName := ".zip".data

/-- Order used by the comparator of src/index.ts:70
(`b.mtime.getTime() - a.mtime.getTime()`): `a` sorts before `b` exactly
when `a` is at least as recent. -/
def newerFirst (a b : FileInfo) : Prop := b.mtime ≤ a.mtime

instance : DecidableRel newerFirst := fun a b => Int.decLe b.mtime a.mtime

instance : IsTotal FileInfo newerFirst := ⟨fun a b => Int.le_total b.mtime a.mtime⟩

instance : IsTrans FileInfo newerFirst :=
  ⟨fun _ _ _ h h2 => Int.le_trans h2 h⟩

/-- Function `getZipFiles` (src/index.ts:50-78). `listing` is the outcome of reading
the downloads folder together with the stat of each entry; any error in the
`try` block is caught and yields the empty list. Otherwise the entries
ending in ".zip" are kept and sorted newest-first; `insertionSort` is a
stable sort, like the JS array sort of src/index.ts:70. -/
def getZipFiles (listing : Except Err (List FileInfo)) : List FileInfo :=
  match listing with
  | Except.error _ => []
  | Except.ok files =>
    List.insertionSort newerFirst (files.filter (fun f => zipSuffix.isSuffixOf f.name))

/-! Orchestration (`main`, src/index.ts:233-299). -/

/-- The two device roles. -/
inductive Side where
  | left
  | right
deriving DecidableEq

/-- Externally visible steps of one run of `main`, in execution order. -/
inductive MainEv where
  | promptSelect
  | extractStep
  | waitDevice (s : Side)
  | copyStep (s : Side)
  | promptDelete
  | deleteArchive (ok : Bool)
deriving DecidableEq

/-- All the oracles one run of `main` consumes, in the order the source
consumes them. -/
structure MainEnv where
  zipListing : Except Err (List FileInfo)
  tempDir : FileName
  extracted : Except Err (List FileName)
  leftVols : Nat → VolumeFS
  rightVols : Nat → VolumeFS
  leftCopy : CopyEnv
  rightCopy : CopyEnv
  deleteZip : Bool
  deleteOk : Bool

/-- Observable outcome of a terminating run of `main`: the steps performed
and the process exit status (`process.exit(1)` on the failure paths,
implicit status 0 on normal completion). -/
structure MainOutcome where
  events : List MainEv
  exitCode : Nat
deriving DecidableEq

/-- Function `main` (src/index.ts:233-299), step by step. An empty candidate list
exits with status 1 (src/index.ts:240-243). An extraction error, or the
error a copy step throws after exhausting its retries, is caught by the
outer catch and exits with status 1 (src/index.ts:295-298). Each wait step
may poll forever: `none` models a run in which a wait never returns
(`waitFuel` bounds the polling unfolded for each wait). The deletion step
runs only on full success and only if the user confirms; its failure is
caught and logged (src/index.ts:285-293), so completion still exits with
status 0. -/
def mainRun (env : MainEnv) (waitFuel : Nat) : Option MainOutcome :=
  if (getZipFiles env.zipListing).isEmpty then
    some { events := [], exitCode := 1 }
  else
    match (extractFirmwareFiles env.tempDir env.extracted).result with
    | Except.error _ =>
      some { events := [MainEv.promptSelect, MainEv.extractStep], exitCode := 1 }
    | Except.ok _ =>
      match waitForBootloaderMode env.leftVols waitFuel with
      | none => none
      | some _ =>
        match copyFirmwareToKeyboard env.leftCopy with
        | CopyResult.exhausted _ =>
          some { events := [MainEv.promptSelect, MainEv.extractStep,
                            MainEv.waitDevice Side.left, MainEv.copyStep Side.left],
                 exitCode := 1 }
        | CopyResult.success _ =>
          match waitForBootloaderMode env.rightVols waitFuel with
          | none => none
          | some _ =>
            match copyFirmwareToKeyboard env.rightCopy with
            | CopyResult.exhausted _ =>
              some { events := [MainEv.promptSelect, MainEv.extractStep,
                                MainEv.waitDevice Side.left, MainEv.copyStep Side.left,
                                MainEv.waitDevice Side.right, MainEv.copyStep Side.right],
                     exitCode := 1 }
            | CopyResult.success _ =>
              some { events := [MainEv.promptSelect, MainEv.extractStep,
                                MainEv.waitDevice Side.left, MainEv.copyStep Side.left,
                                MainEv.waitDevice Side.right, MainEv.copyStep Side.right,
                                MainEv.promptDelete] ++
                                (if env.deleteZip then [MainEv.deleteArchive env.deleteOk] else []),
                     exitCode := 0 }

/-! Theorems. -/

/-- C2: `isVolumeReady` returns `true` exactly when the mount path exists,
its contents can be listed and it is writable; any failed probe yields
`false`. The function is total with result type `Bool`, so no error ever
reaches the caller. -/
theorem c2_isVolumeReady_iff_all_three (v : VolumeFS) :
    isVolumeReady v = (v.pathExists && v.listable && v.writable) := by
  cases v with
  | mk pe li wr => cases pe <;> cases li <;> cases wr <;> rfl

theorem waitLoop_first_true (vols : Nat → VolumeFS) :
    ∀ (n k fuel : Nat), (∀ j, j < n → isVolumeReady (vols (k + j)) = false) →
      isVolumeReady (vols (k + n)) = true → n < fuel →
      waitLoop vols k fuel =
        some (failedPollsTrace n ++ [WaitEvent.observe true, WaitEvent.sleepSettle]) := by
  intro n
  induction n with
  | zero =>
    intro k fuel _ hready hfuel
    match fuel, hfuel with
    | f + 1, _ =>
      simp only [waitLoop]
      rw [show k + 0 = k from rfl] at hready
      rw [hready]
      rfl
  | succ n ih =>
    intro k fuel hfail hready hfuel
    match fuel, hfuel with
    | f + 1, hfuel =>
      have h0 : isVolumeReady (vols k) = false := by
        have := hfail 0 (Nat.succ_pos n)
        simpa using this
      have hrec : waitLoop vols (k + 1) f =
          some (failedPollsTrace n ++ [WaitEvent.observe true, WaitEvent.sleepSettle]) := by
        apply ih
        · intro j hj
          have := hfail (j + 1) (Nat.succ_lt_succ hj)
          simpa [Nat.add_assoc, Nat.add_comm 1 j] using this
        · have : k + 1 + n = k + (n + 1) := by omega
          rw [this]
          exact hready
        · omega
      simp only [waitLoop, h0]
      rw [hrec]
      rfl

theorem waitLoop_never_ready (vols : Nat → VolumeFS)
    (h : ∀ k, isVolumeReady (vols k) = false) :
    ∀ (fuel k : Nat), waitLoop vols k fuel = none := by
  intro fuel
  induction fuel with
  | zero => intro k; rfl
  | succ f ih =>
    intro k
    simp [waitLoop, h k, ih (k + 1)]

theorem countObserves_failedPollsTrace (n : Nat) :
    countObserves (failedPollsTrace n ++ [WaitEvent.observe true, WaitEvent.sleepSettle]) =
      n + 1 := by
  induction n with
  | zero => rfl
  | succ n ih =>
    simp [failedPollsTrace, countObserves, List.countP_cons] at ih ⊢
    omega

/-- C3: `waitForBootloaderMode` returns exactly at the first `true`
readiness observation: if the first `n` observations are `false` and the
next is `true`, the run's trace is those `n` failed polls followed by the
single `true` observation and the settle delay, with nothing after — in
total `n + 1` readiness observations, so an already-ready mount is observed
exactly once. If no observation is ever `true`, the loop never returns for
any amount of fuel: there is no failure exit. -/
theorem c3_waitForBootloaderMode_first_true :
    (∀ (vols : Nat → VolumeFS) (n fuel : Nat),
      (∀ j, j < n → isVolumeReady (vols j) = false) →
      isVolumeReady (vols n) = true → n < fuel →
      waitForBootloaderMode vols fuel =
        some (failedPollsTrace n ++ [WaitEvent.observe true, WaitEvent.sleepSettle]) ∧
      countObserves (failedPollsTrace n ++ [WaitEvent.observe true, WaitEvent.sleepSettle]) =
        n + 1) ∧
    (∀ (vols : Nat → VolumeFS) (fuel : Nat),
      (∀ k, isVolumeReady (vols k) = false) → waitForBootloaderMode vols fuel = none) ∧
    (∀ (vols : Nat → VolumeFS) (fuel : Nat),
      isVolumeReady (vols 0) = true →
      waitForBootloaderMode vols (fuel + 1) =
        some [WaitEvent.observe true, WaitEvent.sleepSettle]) := by
  refine ⟨?_, ?_, ?_⟩
  · intro vols n fuel hfail hready hfuel
    refine ⟨?_, countObserves_failedPollsTrace n⟩
    have := waitLoop_first_true vols n 0 fuel (by simpa using hfail) (by simpa using hready) hfuel
    exact this
  · intro vols fuel h
    exact waitLoop_never_ready vols h fuel 0
  · intro vols fuel h
    have := waitLoop_first_true vols 0 0 (fuel + 1) (by omega) (by simpa using h) (by omega)
    simpa [failedPollsTrace] using this

/-- Volume state used by concrete witnesses: fully ready. -/
def readyVol : VolumeFS := { pathExists := true, listable := true, writable := true }

/-- Volume state used by concrete witnesses: not yet mounted. -/
def absentVol : VolumeFS := { pathExists := false, listable := false, writable := false }

/-- Concrete polling scenario: the volume appears at the third observation. -/
def volsAppearAt2 (k : Nat) : VolumeFS := if k < 2 then absentVol else readyVol

/-- Witness for C3: with the volume appearing at observation index 2 and
fuel 5, the wait returns the concrete trace with 3 observations; and an
always-ready volume is observed exactly once. -/
theorem c3_waitForBootloaderMode_first_true_witness :
    (waitForBootloaderMode volsAppearAt2 5 =
        some (failedPollsTrace 2 ++ [WaitEvent.observe true, WaitEvent.sleepSettle]) ∧
      countObserves (failedPollsTrace 2 ++ [WaitEvent.observe true, WaitEvent.sleepSettle]) =
        2 + 1) ∧
    waitForBootloaderMode (fun _ => readyVol) (4 + 1) =
      some [WaitEvent.observe true, WaitEvent.sleepSettle] :=
  ⟨c3_waitForBootloaderMode_first_true.1 volsAppearAt2 2 5 (by decide) (by decide) (by decide),
   c3_waitForBootloaderMode_first_true.2.2 (fun _ => readyVol) 4 (by decide)⟩

theorem copyLoop_step_ok (env : CopyEnv) (retries fuel : Nat)
    (hlt : retries < maxRetries) (h : copyAttempt env retries = Except.ok ()) :
    copyLoop env retries (fuel + 1) = CopyResult.success (retries + 1) := by
  simp [copyLoop, hlt, h]

theorem copyLoop_step_retry (env : CopyEnv) (retries fuel : Nat) (e : Err)
    (hlt : retries + 1 < maxRetries) (h : copyAttempt env retries = Except.error e) :
    copyLoop env retries (fuel + 1) = copyLoop env (retries + 1) fuel := by
  simp [copyLoop, Nat.lt_of_succ_lt hlt, h, Nat.not_le_of_lt hlt]

theorem copyLoop_step_exhaust (env : CopyEnv) (retries fuel : Nat) (e : Err)
    (hlt : retries < maxRetries) (hge : maxRetries ≤ retries + 1)
    (h : copyAttempt env retries = Except.error e) :
    copyLoop env retries (fuel + 1) = CopyResult.exhausted e := by
  simp [copyLoop, hlt, h, hge]

theorem copyLoop_congr (env env2 : CopyEnv)
    (h : ∀ i, i < maxRetries → copyAttempt env i = copyAttempt env2 i) :
    ∀ (fuel retries : Nat), copyLoop env retries fuel = copyLoop env2 retries fuel := by
  intro fuel
  induction fuel with
  | zero => intro retries; rfl
  | succ f ih =>
    intro retries
    by_cases hlt : retries < maxRetries
    · simp only [copyLoop, hlt, if_true, h retries hlt]
      cases copyAttempt env2 retries with
      | ok u => rfl
      | error e =>
        by_cases hge : retries + 1 ≥ maxRetries
        · simp [hge]
        · simp [hge, ih (retries + 1)]
    · simp [copyLoop, hlt]

theorem copyAttempt_error_of_not_ok (env : CopyEnv) (i : Nat)
    (h : copyAttempt env i ≠ Except.ok ()) : ∃ e, copyAttempt env i = Except.error e := by
  cases ha : copyAttempt env i with
  | ok u => cases u; exact absurd ha h
  | error e => exact ⟨e, rfl⟩

/-- C1: the retry loop of `copyFirmwareToKeyboard`. First, each attempt
runs the writability probe before the copy: when the probe fails the
attempt's outcome is that probe's error (the copy is never consulted), and
an attempt succeeds exactly when both the probe and the copy succeed, so
either kind of failure drives the retry path. Second, if attempts 1-4 fail
and attempt 5 succeeds, the call returns success after exactly 5 attempts.
Third, if attempts 1-4 fail and attempt 5 raises `e`, the call propagates
exactly `e` as exhausted. Fourth, the result depends only on the outcomes
of the first `maxRetries = 5` attempts: a sixth attempt is never made. -/
theorem c1_copyFirmwareToKeyboard_retry :
    (∀ (env : CopyEnv) (n : Nat), env.writable n = false →
      copyAttempt env n = Except.error (env.accessErr n)) ∧
    (∀ (env : CopyEnv) (n : Nat),
      copyAttempt env n = Except.ok () ↔ (env.writable n = true ∧ env.copyOk n = true)) ∧
    (∀ env : CopyEnv, (∀ i, i < 4 → copyAttempt env i ≠ Except.ok ()) →
      copyAttempt env 4 = Except.ok () →
      copyFirmwareToKeyboard env = CopyResult.success 5) ∧
    (∀ (env : CopyEnv) (e : Err), (∀ i, i < 4 → copyAttempt env i ≠ Except.ok ()) →
      copyAttempt env 4 = Except.error e →
      copyFirmwareToKeyboard env = CopyResult.exhausted e) ∧
    (∀ env env2 : CopyEnv, (∀ i, i < maxRetries → copyAttempt env i = copyAttempt env2 i) →
      copyFirmwareToKeyboard env = copyFirmwareToKeyboard env2) := by
  have hattempt : ∀ (env : CopyEnv) (n : Nat),
      copyAttempt env n = Except.ok () ↔ (env.writable n = true ∧ env.copyOk n = true) := by
    intro env n
    cases hw : env.writable n <;> cases hc : env.copyOk n <;>
      simp [copyAttempt, hw, hc, Bind.bind, Except.bind]
  have hfour : ∀ env : CopyEnv, (∀ i, i < 4 → copyAttempt env i ≠ Except.ok ()) →
      copyFirmwareToKeyboard env = copyLoop env 4 1 := by
    intro env h
    obtain ⟨e0, h0⟩ := copyAttempt_error_of_not_ok env 0 (h 0 (by omega))
    obtain ⟨e1, h1⟩ := copyAttempt_error_of_not_ok env 1 (h 1 (by omega))
    obtain ⟨e2, h2⟩ := copyAttempt_error_of_not_ok env 2 (h 2 (by omega))
    obtain ⟨e3, h3⟩ := copyAttempt_error_of_not_ok env 3 (h 3 (by omega))
    calc copyFirmwareToKeyboard env
        = copyLoop env 1 (2 + 1 + 1) := copyLoop_step_retry env 0 (2 + 1 + 1) e0 (by decide) h0
      _ = copyLoop env 2 (1 + 1 + 1) := copyLoop_step_retry env 1 (1 + 1 + 1) e1 (by decide) h1
      _ = copyLoop env 3 (0 + 1 + 1) := copyLoop_step_retry env 2 (0 + 1 + 1) e2 (by decide) h2
      _ = copyLoop env 4 1 := copyLoop_step_retry env 3 (0 + 1) e3 (by decide) h3
  refine ⟨?_, hattempt, ?_, ?_, ?_⟩
  · intro env n hw
    simp [copyAttempt, hw, Bind.bind, Except.bind]
  · intro env h hok
    rw [hfour env h]
    exact copyLoop_step_ok env 4 0 (by decide) hok
  · intro env e h herr
    rw [hfour env h]
    exact copyLoop_step_exhaust env 4 0 e (by decide) (by decide) herr
  · intro env env2 h
    exact copyLoop_congr env env2 h maxRetries 0

instance (ε α : Type) [DecidableEq ε] [DecidableEq α] : DecidableEq (Except ε α) := fun x y =>
  match x, y with
  | Except.ok a, Except.ok b =>
    if h : a = b then isTrue (by rw [h])
    else isFalse (fun hh => h (Except.ok.inj hh))
  | Except.ok _, Except.error _ => isFalse (fun hh => Except.noConfusion hh)
  | Except.error _, Except.ok _ => isFalse (fun hh => Except.noConfusion hh)
  | Except.error e, Except.error f =>
    if h : e = f then isTrue (by rw [h])
    else isFalse (fun hh => h (Except.error.inj hh))

/-- Concrete copy oracle for the C1 witness: the writability probe fails on
the first four attempts and everything succeeds from the fifth on. -/
def copyEnvFailFourTimes : CopyEnv :=
  { writable := fun n => decide (4 ≤ n), copyOk := fun _ => true,
    accessErr := fun n => if n = 4 then "EACCES4".data else "EACCES".data,
    copyErr := fun _ => [] }

/-- Concrete copy oracle for the C1 witness: the probe always succeeds but
every copy fails. -/
def copyEnvNeverCopies : CopyEnv :=
  { writable := fun _ => true, copyOk := fun _ => false,
    accessErr := fun _ => [],
    copyErr := fun n => if n = 4 then "ENOSPC4".data else "ENOSPC".data }

/-- Witness for C1 at concrete oracles: failing the writability probe four
times then succeeding yields success after exactly 5 attempts; failing the
copy on all five attempts yields exhausted with the fifth attempt's error;
a probe failure produces the probe's error; and the congruence part applied
at two oracles that agree on the first five attempts. -/
theorem c1_copyFirmwareToKeyboard_retry_witness :
    copyFirmwareToKeyboard copyEnvFailFourTimes = CopyResult.success 5 ∧
    copyFirmwareToKeyboard copyEnvNeverCopies =
      CopyResult.exhausted "ENOSPC4".data ∧
    copyAttempt copyEnvFailFourTimes 0 =
      Except.error (copyEnvFailFourTimes.accessErr 0) ∧
    copyFirmwareToKeyboard copyEnvNeverCopies =
      copyFirmwareToKeyboard
        { copyEnvNeverCopies with writable := fun n => decide (n < 9) } :=
  ⟨c1_copyFirmwareToKeyboard_retry.2.2.1 copyEnvFailFourTimes (by decide) (by decide),
   c1_copyFirmwareToKeyboard_retry.2.2.2.1 copyEnvNeverCopies "ENOSPC4".data
     (by decide) (by decide),
   c1_copyFirmwareToKeyboard_retry.1 copyEnvFailFourTimes 0 (by decide),
   c1_copyFirmwareToKeyboard_retry.2.2.2.2 copyEnvNeverCopies
     { copyEnvNeverCopies with writable := fun n => decide (n < 9) } (by decide)⟩

theorem readFile_writeFile_same (d : Dir) (nm : FileName) (content : List Nat) :
    readFile (writeFile d nm content) nm = some content := by
  induction d with
  | nil => simp [writeFile, readFile]
  | cons hd tl ih =>
    obtain ⟨n, c⟩ := hd
    by_cases h : n = nm
    · simp [writeFile, readFile, h]
    · simp [writeFile, readFile, h, ih]

theorem readFile_writeFile_other (d : Dir) (nm content nm2 : _) (h : nm2 ≠ nm) :
    readFile (writeFile d nm content) nm2 = readFile d nm2 := by
  induction d with
  | nil => simp [writeFile, readFile, Ne.symm h]
  | cons hd tl ih =>
    obtain ⟨n, c⟩ := hd
    by_cases hn : n = nm
    · subst hn
      simp [writeFile, readFile, Ne.symm h]
    · simp only [writeFile, readFile, if_neg hn]
      by_cases h2 : n = nm2 <;> simp [h2, ih]

/-- C4: a successful copy attempt stores the source's bytes in the volume
directory under the source path's base filename — afterwards reading that
name yields exactly the source content, for any prior directory state
(including one already holding a file of that name, which is overwritten),
any content (including the empty, zero-length file), while every other
entry name is untouched. -/
theorem c4_copyFirmwareEffect_basename_bytes :
    (∀ (p : FileName) (content : List Nat) (vol : Dir),
      readFile (copyFirmwareEffect p content vol) (pathBasename p) = some content) ∧
    (∀ (p : FileName) (content : List Nat) (vol : Dir) (nm : FileName),
      nm ≠ pathBasename p →
      readFile (copyFirmwareEffect p content vol) nm = readFile vol nm) ∧
    (∀ (p : FileName) (vol : Dir),
      readFile (copyFirmwareEffect p [] vol) (pathBasename p) = some []) := by
  refine ⟨?_, ?_, ?_⟩
  · intro p content vol
    exact readFile_writeFile_same vol (pathBasename p) content
  · intro p content vol nm h
    exact readFile_writeFile_other vol (pathBasename p) content nm h
  · intro p vol
    exact readFile_writeFile_same vol (pathBasename p) []

/-- Witness for C4 at a concrete source path, volume and contents: the
firmware lands under the base filename, overwrites the stale copy that was
already there, and the unrelated entry keeps its content. -/
theorem c4_copyFirmwareEffect_basename_bytes_witness :
    readFile
      (copyFirmwareEffect "/tmp/kf/sofle_left.uf2".data [7, 7, 7]
        [("sofle_left.uf2".data, [1]), ("other.txt".data, [2])])
      (pathBasename "/tmp/kf/sofle_left.uf2".data) = some [7, 7, 7] ∧
    readFile
      (copyFirmwareEffect "/tmp/kf/sofle_left.uf2".data [7, 7, 7]
        [("sofle_left.uf2".data, [1]), ("other.txt".data, [2])])
      "other.txt".data = some [2] :=
  ⟨c4_copyFirmwareEffect_basename_bytes.1 "/tmp/kf/sofle_left.uf2".data [7, 7, 7]
      [("sofle_left.uf2".data, [1]), ("other.txt".data, [2])],
   by
    rw [c4_copyFirmwareEffect_basename_bytes.2.1 "/tmp/kf/sofle_left.uf2".data [7, 7, 7]
      [("sofle_left.uf2".data, [1]), ("other.txt".data, [2])] "other.txt".data (by decide)]
    decide⟩

/-- C6: `extractFirmwareFiles` on a failed extraction propagates that error
and removes the scratch directory; when either role's regex matches none of
the extracted names it raises the descriptive message of src/index.ts:97
and removes the scratch directory — in both failure cases the result
carries no path at all; and only when both roles match does it return both
paths (the matched names joined onto the scratch directory), keeping the
directory. -/
theorem c6_extractFirmwareFiles_all_or_nothing :
    (∀ (tmp : FileName) (e : Err),
      extractFirmwareFiles tmp (Except.error e) =
        { result := Except.error e, tempDirRemoved := true }) ∧
    (∀ (tmp : FileName) (files : List FileName),
      (files.find? (testRole LEFT_MARKER) = none ∨
        files.find? (testRole RIGHT_MARKER) = none) →
      extractFirmwareFiles tmp (Except.ok files) =
        { result := Except.error missingFirmwareMsg, tempDirRemoved := true }) ∧
    (∀ (tmp : FileName) (files : List FileName) (l r : FileName),
      files.find? (testRole LEFT_MARKER) = some l →
      files.find? (testRole RIGHT_MARKER) = some r →
      extractFirmwareFiles tmp (Except.ok files) =
        { result := Except.ok (pathJoin tmp l, pathJoin tmp r), tempDirRemoved := false }) := by
  refine ⟨fun tmp e => rfl, ?_, ?_⟩
  · intro tmp files h
    cases hl : files.find? (testRole LEFT_MARKER) with
    | none =>
      cases hr : files.find? (testRole RIGHT_MARKER) with
      | none => simp [extractFirmwareFiles, hl, hr]
      | some r => simp [extractFirmwareFiles, hl, hr]
    | some l =>
      cases hr : files.find? (testRole RIGHT_MARKER) with
      | none => simp [extractFirmwareFiles, hl, hr]
      | some r =>
        rcases h with h | h
        · rw [hl] at h; exact absurd h (by simp)
        · rw [hr] at h; exact absurd h (by simp)
  · intro tmp files l r hl hr
    simp [extractFirmwareFiles, hl, hr]

/-- Witness for C6: a listing missing the right-half firmware fails with
the descriptive message and a removed scratch directory, and a listing with
both halves returns both joined paths. -/
theorem c6_extractFirmwareFiles_all_or_nothing_witness :
    extractFirmwareFiles "/tmp/kf".data (Except.ok ["sofle_left.uf2".data]) =
      { result := Except.error missingFirmwareMsg, tempDirRemoved := true } ∧
    extractFirmwareFiles "/tmp/kf".data
        (Except.ok ["sofle_left.uf2".data, "sofle_right.uf2".data]) =
      { result := Except.ok (pathJoin "/tmp/kf".data "sofle_left.uf2".data,
                             pathJoin "/tmp/kf".data "sofle_right.uf2".data),
        tempDirRemoved := false } :=
  ⟨c6_extractFirmwareFiles_all_or_nothing.2.1 "/tmp/kf".data ["sofle_left.uf2".data]
      (Or.inr (by decide)),
   c6_extractFirmwareFiles_all_or_nothing.2.2 "/tmp/kf".data
      ["sofle_left.uf2".data, "sofle_right.uf2".data]
      "sofle_left.uf2".data "sofle_right.uf2".data (by decide) (by decide)⟩

/-- The shape the claim asserts for role identification, following its
wording: the role marker at the start of the (lowercased) name, then an
arbitrary suffix, then ".uf2" at the end. Stated for comparison with
`testRole`, the semantics of the source's regexes. -/
def specRoleShape (marker nm : FileName) : Bool :=
  marker.isPrefixOf (nm.map Char.toLower) &&
    uf2Suffix.isSuffixOf ((nm.map Char.toLower).drop marker.length)

theorem markerThenDotStar_iff (p : FileName) :
    ∀ l : FileName, markerThenDotStar p l = true ↔
      ∃ a b, l = a ++ p ++ b ∧ b.all regexDotMatches = true := by
  intro l
  induction l with
  | nil =>
    simp only [markerThenDotStar, List.isEmpty_iff]
    constructor
    · intro h
      exact ⟨[], [], by simp [h], rfl⟩
    · rintro ⟨a, b, h, _⟩
      rcases List.append_eq_nil.mp (List.append_eq_nil.mp h.symm).1 with ⟨_, hp⟩
      exact hp
  | cons c rest ih =>
    simp only [markerThenDotStar, Bool.or_eq_true, Bool.and_eq_true,
      List.isPrefixOf_iff_prefix, ih]
    constructor
    · rintro (⟨⟨t, ht⟩, hall⟩ | ⟨a, b, hab, hball⟩)
      · refine ⟨[], t, by simp [← ht], ?_⟩
        rw [← ht, List.drop_left] at hall
        exact hall
      · exact ⟨c :: a, b, by simp [hab], hball⟩
    · rintro ⟨a, b, hab, hball⟩
      cases a with
      | nil =>
        have hcr : c :: rest = p ++ b := by simpa using hab
        refine Or.inl ⟨⟨b, hcr.symm⟩, ?_⟩
        rw [hcr, List.drop_left]
        exact hball
      | cons c2 a2 =>
        rw [List.cons_append, List.cons_append] at hab
        cases hab
        exact Or.inr ⟨a2, b, rfl, hball⟩

theorem uf2Suffix_length : uf2Suffix.length = 4 := rfl

/-- C7 (amended): `testRole marker` accepts a name exactly when its
lowercased form decomposes as an arbitrary (possibly empty) part, then the
marker, then a part free of line terminators, then ".uf2" at the very end.
The marker is not required to sit at the start of the name (the source
regexes carry an end anchor but no start anchor), while the segment the
regex's ".*" covers, between the marker and the extension, may not contain
a line terminator. -/
theorem c7_testRole_iff_infix_marker (marker nm : FileName) :
    testRole marker nm = true ↔
      ∃ a b, nm.map Char.toLower = a ++ marker ++ b ++ uf2Suffix ∧
        b.all regexDotMatches = true := by
  unfold testRole
  rw [Bool.and_eq_true]
  constructor
  · rintro ⟨h1, h2⟩
    rw [List.isSuffixOf_iff_suffix] at h1
    obtain ⟨s, hs⟩ := h1
    have hlen : (nm.map Char.toLower).length = s.length + 4 := by
      rw [← hs, List.length_append, uf2Suffix_length]
    have htake : (nm.map Char.toLower).take ((nm.map Char.toLower).length - 4) = s := by
      rw [hlen, Nat.add_sub_cancel, ← hs]
      exact List.take_left s uf2Suffix
    rw [htake, markerThenDotStar_iff] at h2
    obtain ⟨a, b, hab, hball⟩ := h2
    exact ⟨a, b, by rw [← hs, hab]; try simp [List.append_assoc], hball⟩
  · rintro ⟨a, b, h, hball⟩
    have h2 : nm.map Char.toLower = (a ++ marker ++ b) ++ uf2Suffix := by
      rw [h]; try simp [List.append_assoc]
    have hsfx : uf2Suffix.isSuffixOf (nm.map Char.toLower) = true := by
      rw [List.isSuffixOf_iff_suffix]
      exact ⟨a ++ marker ++ b, h2.symm⟩
    refine ⟨hsfx, ?_⟩
    have htake : (nm.map Char.toLower).take ((nm.map Char.toLower).length - 4) =
        a ++ marker ++ b := by
      rw [h2, List.length_append, uf2Suffix_length, Nat.add_sub_cancel]
      exact List.take_left (a ++ marker ++ b) uf2Suffix
    rw [htake, markerThenDotStar_iff]
    exact ⟨a, b, rfl, hball⟩

/-- The model honors the line-terminator restriction of '.': a newline
between the role marker and the extension makes the regex — and the model
— reject the name, while the same name without the newline is accepted. -/
theorem testRole_rejects_newline_segment :
    testRole LEFT_MARKER "sofle_left\nx.uf2".data = false ∧
    testRole LEFT_MARKER "sofle_leftx.uf2".data = true := by
  decide

/-- Counterexample for C7 as stated: the name "xsofle_left.uf2" is accepted
by the left-role regex semantics even though the role marker is not at the
start of the name, so identification is not equivalent to the
start-anchored shape the claim describes. -/
theorem c7_testRole_counterexample :
    testRole LEFT_MARKER "xsofle_left.uf2".data = true ∧
    specRoleShape LEFT_MARKER "xsofle_left.uf2".data = false := by
  decide

/-- Witness for C7 (amended) at a concrete decomposition: a name with text
on both sides of the marker, the middle segment free of line terminators,
is accepted, by the right-to-left direction of the equivalence at explicit
lists. -/
theorem c7_testRole_iff_infix_marker_witness :
    testRole LEFT_MARKER "zmk_sofle_left_v1.uf2".data = true :=
  (c7_testRole_iff_infix_marker LEFT_MARKER "zmk_sofle_left_v1.uf2".data).mpr
    ⟨"zmk_".data, "_v1".data, by decide, by decide⟩

theorem find?_first_match {α : Type} (p : α → Bool) :
    ∀ (l : List α) (x : α), l.find? p = some x →
      p x = true ∧ ∃ l1 l2, l = l1 ++ x :: l2 ∧ ∀ y ∈ l1, p y = false := by
  intro l
  induction l with
  | nil => intro x h; cases h
  | cons c t ih =>
    intro x h
    cases hp : p c with
    | true =>
      rw [List.find?_cons_of_pos _ hp] at h
      cases h
      exact ⟨hp, [], t, rfl, by simp⟩
    | false =>
      rw [List.find?_cons_of_neg _ (by simp [hp])] at h
      obtain ⟨hx, l1, l2, heq, hall⟩ := ih x h
      refine ⟨hx, c :: l1, l2, by rw [heq]; rfl, ?_⟩
      intro y hy
      rcases List.mem_cons.mp hy with hy | hy
      · rw [hy]; exact hp
      · exact hall y hy

/-- C10: `extractFirmwareFiles` selects, for each role, the first extracted
name (in listing order) accepted by that role's regex: whenever `find?`
yields a name, that name matches and everything listed before it does not.
In particular a single name matching both role regexes is selected for both
roles, making the returned left and right paths equal, as at the concrete
listing containing only "sofle_left_sofle_right.uf2". -/
theorem c10_extract_first_match_both_roles :
    (∀ (files : List FileName) (marker x : FileName),
      files.find? (testRole marker) = some x →
      testRole marker x = true ∧
        ∃ l1 l2, files = l1 ++ x :: l2 ∧ ∀ y ∈ l1, testRole marker y = false) ∧
    extractFirmwareFiles "/tmp/kf".data
        (Except.ok ["readme.txt".data, "sofle_left_sofle_right.uf2".data]) =
      { result := Except.ok (pathJoin "/tmp/kf".data "sofle_left_sofle_right.uf2".data,
                             pathJoin "/tmp/kf".data "sofle_left_sofle_right.uf2".data),
        tempDirRemoved := false } := by
  refine ⟨fun files marker x h => find?_first_match (testRole marker) files x h, ?_⟩
  rfl

/-- Witness for C10: the first-match part applied at a concrete listing in
which a non-matching name precedes the matching one. -/
theorem c10_extract_first_match_both_roles_witness :
    testRole LEFT_MARKER "sofle_left_sofle_right.uf2".data = true ∧
    ∃ l1 l2,
      ["readme.txt".data, "sofle_left_sofle_right.uf2".data] =
        l1 ++ "sofle_left_sofle_right.uf2".data :: l2 ∧
      ∀ y ∈ l1, testRole LEFT_MARKER y = false :=
  c10_extract_first_match_both_roles.1
    ["readme.txt".data, "sofle_left_sofle_right.uf2".data] LEFT_MARKER
    "sofle_left_sofle_right.uf2".data (by decide)

/-- C8: `getZipFiles` yields the empty list when the directory read fails,
and otherwise a permutation of exactly the entries whose name ends in
".zip" (so membership is precisely that filter), arranged newest-first
(non-increasing modification time). -/
theorem c8_getZipFiles_filter_sorted :
    (∀ e : Err, getZipFiles (Except.error e) = []) ∧
    (∀ files : List FileInfo,
      (getZipFiles (Except.ok files)).Perm
        (files.filter (fun f => zipSuffix.isSuffixOf f.name))) ∧
    (∀ files : List FileInfo, List.Sorted newerFirst (getZipFiles (Except.ok files))) ∧
    (∀ (files : List FileInfo) (f : FileInfo),
      f ∈ getZipFiles (Except.ok files) ↔
        (f ∈ files ∧ zipSuffix.isSuffixOf f.name = true)) := by
  refine ⟨fun e => rfl, ?_, ?_, ?_⟩
  · intro files
    exact List.perm_insertionSort newerFirst _
  · intro files
    exact List.sorted_insertionSort newerFirst _
  · intro files f
    show f ∈ List.insertionSort newerFirst
      (files.filter (fun f => zipSuffix.isSuffixOf f.name)) ↔ _
    rw [(List.perm_insertionSort newerFirst
      (files.filter (fun f => zipSuffix.isSuffixOf f.name))).mem_iff]
    simp [List.mem_filter]

/-- Concrete listing for the C8/C9 scenarios: an old "a.zip", a new
"b.zip" and a non-matching "c.txt". -/
def sampleListing : List FileInfo :=
  [{ name := "a.zip".data, mtime := 100 },
   { name := "b.zip".data, mtime := 900 },
   { name := "c.txt".data, mtime := 500 }]

/-- The spec's listing scenario, proved from the model: only the two ".zip"
entries survive, ordered newest-first. -/
theorem getZipFiles_sampleListing :
    getZipFiles (Except.ok sampleListing) =
      [{ name := "b.zip".data, mtime := 900 }, { name := "a.zip".data, mtime := 100 }] := by
  decide

/-- C9: the candidate filter compares the ".zip" extension exactly, hence
case-sensitively: every returned entry's name ends in the lowercase
".zip", the suffix test rejects "FIRMWARE.ZIP", and a listing holding only
that file yields no candidates. -/
theorem c9_zip_filter_case_sensitive :
    (∀ (files : List FileInfo) (f : FileInfo),
      f ∈ getZipFiles (Except.ok files) → zipSuffix.isSuffixOf f.name = true) ∧
    zipSuffix.isSuffixOf "FIRMWARE.ZIP".data = false ∧
    getZipFiles (Except.ok [{ name := "FIRMWARE.ZIP".data, mtime := 0 }]) = [] := by
  refine ⟨?_, by decide, by decide⟩
  intro files f hf
  have := (List.perm_insertionSort newerFirst
    (files.filter (fun f => zipSuffix.isSuffixOf f.name))).mem_iff.mp hf
  exact (List.mem_filter.mp this).2

/-- Witness for C9: the general part applied to a concrete listing in which
a lowercase-named archive is a member of the result. -/
theorem c9_zip_filter_case_sensitive_witness :
    zipSuffix.isSuffixOf (FileInfo.name { name := "a.zip".data, mtime := 100 }) = true :=
  c9_zip_filter_case_sensitive.1 sampleListing { name := "a.zip".data, mtime := 100 }
    (by decide)

/-- C5: orchestration order and exit status of `main`. When candidates
exist, extraction succeeds, the left wait returns and the left copy
exhausts its retries, the run performs exactly select, extract, wait-left,
copy-left — the right half's wait and copy never appear — and exits with
status 1. When both halves' waits return and both copies succeed, the run
performs the six steps strictly in the order wait-left, copy-left,
wait-right, copy-right (after select and extract), then the delete prompt,
and exits with status 0 whatever the delete decision and the deletion's own
outcome. -/
theorem c5_main_order_and_exit :
    (∀ (env : MainEnv) (waitFuel : Nat),
      (getZipFiles env.zipListing).isEmpty = false →
      (∃ pair, (extractFirmwareFiles env.tempDir env.extracted).result = Except.ok pair) →
      (∃ trL, waitForBootloaderMode env.leftVols waitFuel = some trL) →
      (∃ eL, copyFirmwareToKeyboard env.leftCopy = CopyResult.exhausted eL) →
      mainRun env waitFuel =
        some { events := [MainEv.promptSelect, MainEv.extractStep,
                          MainEv.waitDevice Side.left, MainEv.copyStep Side.left],
               exitCode := 1 } ∧
      MainEv.waitDevice Side.right ∉
        [MainEv.promptSelect, MainEv.extractStep,
         MainEv.waitDevice Side.left, MainEv.copyStep Side.left] ∧
      MainEv.copyStep Side.right ∉
        [MainEv.promptSelect, MainEv.extractStep,
         MainEv.waitDevice Side.left, MainEv.copyStep Side.left]) ∧
    (∀ (env : MainEnv) (waitFuel : Nat),
      (getZipFiles env.zipListing).isEmpty = false →
      (∃ pair, (extractFirmwareFiles env.tempDir env.extracted).result = Except.ok pair) →
      (∃ trL, waitForBootloaderMode env.leftVols waitFuel = some trL) →
      (∃ nL, copyFirmwareToKeyboard env.leftCopy = CopyResult.success nL) →
      (∃ trR, waitForBootloaderMode env.rightVols waitFuel = some trR) →
      (∃ nR, copyFirmwareToKeyboard env.rightCopy = CopyResult.success nR) →
      mainRun env waitFuel =
        some { events := [MainEv.promptSelect, MainEv.extractStep,
                          MainEv.waitDevice Side.left, MainEv.copyStep Side.left,
                          MainEv.waitDevice Side.right, MainEv.copyStep Side.right,
                          MainEv.promptDelete] ++
                          (if env.deleteZip then [MainEv.deleteArchive env.deleteOk] else []),
               exitCode := 0 }) := by
  constructor
  · rintro env waitFuel hz ⟨pair, hx⟩ ⟨trL, hwL⟩ ⟨eL, hcL⟩
    refine ⟨?_, by decide, by decide⟩
    unfold mainRun
    rw [hz, hx, hwL, hcL]
    rfl
  · rintro env waitFuel hz ⟨pair, hx⟩ ⟨trL, hwL⟩ ⟨nL, hcL⟩ ⟨trR, hwR⟩ ⟨nR, hcR⟩
    unfold mainRun
    rw [hz, hx, hwL, hcL, hwR, hcR]
    rfl

/-- Copy oracle for the C5 witness, identical failure on every attempt. -/
def copyEnvAlwaysFails : CopyEnv :=
  { writable := fun _ => false, copyOk := fun _ => true,
    accessErr := fun _ => "EACCES".data, copyErr := fun _ => [] }

/-- Copy oracle for the C5 witness, success on every attempt. -/
def copyEnvAlwaysOk : CopyEnv :=
  { writable := fun _ => true, copyOk := fun _ => true,
    accessErr := fun _ => [], copyErr := fun _ => [] }

/-- Fully healthy run environment for the C5 witness: one candidate
archive, both firmware files extracted, both volumes immediately ready,
both copies succeed; the user asks for deletion and the deletion fails. -/
def envAllGood : MainEnv :=
  { zipListing := Except.ok [{ name := "firmware.zip".data, mtime := 3 }],
    tempDir := "/tmp/kf".data,
    extracted := Except.ok ["sofle_left.uf2".data, "sofle_right.uf2".data],
    leftVols := fun _ => readyVol,
    rightVols := fun _ => readyVol,
    leftCopy := copyEnvAlwaysOk,
    rightCopy := copyEnvAlwaysOk,
    deleteZip := true,
    deleteOk := false }

/-- Same environment but the left copy exhausts all five attempts. -/
def envLeftExhausts : MainEnv :=
  { envAllGood with leftCopy := copyEnvAlwaysFails }

/-- Witness for C5 at the concrete environments: the left-exhausted run
stops after copy-left with exit status 1 and no right-half steps, and the
healthy run performs all steps in order and exits 0 even though its
deletion step fails. -/
theorem c5_main_order_and_exit_witness :
    (mainRun envLeftExhausts 1 =
        some { events := [MainEv.promptSelect, MainEv.extractStep,
                          MainEv.waitDevice Side.left, MainEv.copyStep Side.left],
               exitCode := 1 } ∧
      MainEv.waitDevice Side.right ∉
        [MainEv.promptSelect, MainEv.extractStep,
         MainEv.waitDevice Side.left, MainEv.copyStep Side.left] ∧
      MainEv.copyStep Side.right ∉
        [MainEv.promptSelect, MainEv.extractStep,
         MainEv.waitDevice Side.left, MainEv.copyStep Side.left]) ∧
    mainRun envAllGood 1 =
      some { events := [MainEv.promptSelect, MainEv.extractStep,
                        MainEv.waitDevice Side.left, MainEv.copyStep Side.left,
                        MainEv.waitDevice Side.right, MainEv.copyStep Side.right,
                        MainEv.promptDelete] ++
                        (if envAllGood.deleteZip then
                          [MainEv.deleteArchive envAllGood.deleteOk] else []),
             exitCode := 0 } :=
  ⟨c5_main_order_and_exit.1 envLeftExhausts 1 (by decide) ⟨_, rfl⟩ ⟨_, rfl⟩ ⟨_, rfl⟩,
   c5_main_order_and_exit.2 envAllGood 1 (by decide) ⟨_, rfl⟩ ⟨_, rfl⟩ ⟨_, rfl⟩
     ⟨_, rfl⟩ ⟨_, rfl⟩⟩

end LoadKeyboardFirmware
